import Mathlib

/-!
Verification of the esp-alarm request pipeline and settings validator.

The definitions below are a shallow embedding of the MicroPython source:
`alarm/HTTP.py` (the per-connection request handling of `HTTP.listen`,
the `CODES` table and `HTTP._send`) and `alarm/utils.py` (`readSettings`
and `getSubstringFromList`).  Python strings are modelled as Lean
`String`s; Python `str.split`, `str.replace` and slicing are modelled by
hand on the underlying character lists so that everything is executable
and provable; Python dictionaries are modelled as association lists with
in-place replacement, which preserves both key uniqueness and insertion
order.  The external JSON decoder (`json.loads`) is modelled as an
explicit function parameter, since it is a library collaborator and not
part of this repository.
-/

/-- Boolean test that `p` is a leading segment of `l` (Python `startswith`
on character lists). -/
def leadsWith : List Char → List Char → Bool
  | [], _ => true
  | _ :: _, [] => false
  | a :: as, b :: bs => a == b && leadsWith as bs

/-- Boolean test that `pat` occurs somewhere inside `l` (Python's `in`
operator on strings, lowered to character lists). -/
def hasSub (pat : List Char) (l : List Char) : Bool :=
  match l with
  | [] => leadsWith pat []
  | _ :: rest => leadsWith pat l || hasSub pat rest

/-- Python `sub in s` for strings. -/
def strContains (s sub : String) : Bool :=
  hasSub sub.data s.data

/-- Fuelled worker for Python `str.split(sep)` on character lists: split on
every occurrence of `sep`, scanning left to right.  The fuel is always
instantiated with the length of the input, which suffices. -/
def splitChF (sep : List Char) : Nat → List Char → List (List Char)
  | _, [] => [[]]
  | 0, l => [l]
  | fuel + 1, c :: rest =>
    if sep != [] && leadsWith sep (c :: rest) then
      [] :: splitChF sep fuel (List.drop (sep.length - 1) rest)
    else
      match splitChF sep fuel rest with
      | [] => [[c]]
      | r :: rs => (c :: r) :: rs

/-- Python `s.split(sep)` for a non-empty separator: the list of fragments
between occurrences of `sep`. -/
def pySplit (s sep : String) : List String :=
  (splitChF sep.data s.data.length s.data).map String.mk

/-- Inverse of splitting: interleave the separator back between fragments. -/
def joinSep (sep : List Char) : List (List Char) → List Char
  | [] => []
  | [p] => p
  | p :: ps => p ++ sep ++ joinSep sep ps

/-- Fuelled worker for Python `str.replace(pat, rep)`: replace every
non-overlapping occurrence, scanning left to right. -/
def replCh (pat rep : List Char) : Nat → List Char → List Char
  | _, [] => []
  | 0, l => l
  | fuel + 1, c :: rest =>
    if pat != [] && leadsWith pat (c :: rest) then
      rep ++ replCh pat rep fuel (List.drop (pat.length - 1) rest)
    else
      c :: replCh pat rep fuel rest

/-- Python `s.replace(pat, rep)`. -/
def pyReplace (s pat rep : String) : String :=
  String.mk (replCh pat.data rep.data s.data.length s.data)

/-- Python slicing `s[0:n]`. -/
def pyTake (s : String) (n : Nat) : String :=
  String.mk (s.data.take n)

/-- Python slicing `s[n:]`. -/
def pyDrop (s : String) (n : Nat) : String :=
  String.mk (s.data.drop n)

/-- Drop the last `n` characters of `s`. -/
def pyDropRight (s : String) (n : Nat) : String :=
  String.mk (s.data.take (s.data.length - n))

/-- Python `s.upper()` (ASCII). -/
def pyUpper (s : String) : String :=
  String.mk (s.data.map Char.toUpper)

/-- The two-character line terminator of the wire protocol. -/
def CRLF : String := "\r\n"

/-- The four-character blank-line marker separating headers from body. -/
def BLANK : String := "\r\n\r\n"

/-- The status-code table `CODES` of `alarm/HTTP.py`. -/
def CODES : List (Nat × String) :=
  [ (100, "Continue"),
    (101, "Switching Protocols"),
    (200, "OK"),
    (201, "Created"),
    (202, "Accepted"),
    (203, "Non-Authoritative Information"),
    (204, "No Content"),
    (205, "Reset Content"),
    (206, "Partial Content"),
    (300, "Multiple Choices"),
    (301, "Moved Permanently"),
    (302, "Found"),
    (303, "See Other"),
    (304, "Not Modified"),
    (305, "Use Proxy"),
    (307, "Temporary Redirect"),
    (400, "Bad Request"),
    (401, "Unauthorized"),
    (402, "Payment Required"),
    (403, "Forbidden"),
    (404, "Not Found"),
    (405, "Method Not Allowed"),
    (406, "Not Acceptable"),
    (407, "Proxy Authentication Required"),
    (408, "Request Timeout"),
    (409, "Conflict"),
    (410, "Gone"),
    (411, "Length Required"),
    (412, "Precondition Failed"),
    (413, "Request Entity Too Large"),
    (414, "Request-URI Too Long"),
    (415, "Unsupported Media Type"),
    (416, "Requested Range Not Satisfiable"),
    (417, "Expectation Failed"),
    (500, "Internal Server Error"),
    (501, "Not Implemented"),
    (502, "Bad Gateway"),
    (503, "Service Unavailable"),
    (504, "Gateway Timeout"),
    (505, "HTTP Version Not Supported") ]

/-- The raw bytes `HTTP._send` writes for a status code: the formatted
status line, or `none` when the code is outside the table (the method
raises `ValueError`). -/
def sendLine (code : Nat) : Option String :=
  match CODES.lookup code with
  | some reason => some ("HTTP/1.1 " ++ toString code ++ " " ++ reason ++ " \r\n\r\n")
  | none => none

/-- Decode the status line back to its `code SP reason` core: strip the
9-character `HTTP/1.1 ` prefix and the 5-character ` \r\n\r\n` suffix. -/
def decodeStatus (s : String) : String :=
  pyDropRight (pyDrop s 9) 5

/-- Worker for `getSubstringFromList`, carrying the running index. -/
def getSubstringFromListAux (sub : String) : Nat → List String → Int
  | _, [] => -1
  | i, s :: rest =>
    if strContains s sub then Int.ofNat i
    else getSubstringFromListAux sub (i + 1) rest

/-- `getSubstringFromList` of `alarm/utils.py`: index of the first string
containing `sub` as a substring, `-1` if none does. -/
def getSubstringFromList (strings : List String) (sub : String) : Int :=
  getSubstringFromListAux sub 0 strings

/-- The break condition of the read loop in `HTTP.listen`:
`if not chunk or chunk == b"\r\n" or b"\r\n" in chunk: break`. -/
def readBreak (chunk : String) : Bool :=
  chunk.isEmpty || chunk == CRLF || strContains chunk CRLF

/-- The read loop of `HTTP.listen` over a schedule of delivered chunks:
append each chunk to the accumulator and stop after the first chunk
satisfying `readBreak`.  An exhausted schedule stands for a closed
connection, whose next `recv` returns the empty chunk. -/
def readRequest : List String → String
  | [] => ""
  | c :: rest => c ++ (if readBreak c then "" else readRequest rest)

/-- `headers, content = request.split("\r\n\r\n")` followed by
`headers = headers.split("\r\n")`: the destructuring assignment succeeds
only when splitting yields exactly two parts, otherwise Python raises
`ValueError`, modelled as `none`. -/
def splitRequest (request : String) : Option (List String × String) :=
  match pySplit request BLANK with
  | [h, c] => some (pySplit h CRLF, c)
  | _ => none

/-- The Python values `json.loads` can produce. -/
inductive PyVal where
  | jstr (s : String)
  | jnum (n : Int)
  | jbool (b : Bool)
  | jnull
  | jobj (entries : List (String × PyVal))
  | jarr (xs : List PyVal)

/-- The observable per-connection events of `HTTP.listen`: a buzzer
activation `alarm(self._buzzer, enabledFor, onTime, offTime)` or a status
line written by `HTTP._send`. -/
inductive Ev where
  | buzz (enabledFor onTime offTime : Nat)
  | send (code : Nat)
deriving DecidableEq, Repr

/-- Uncaught Python exceptions that propagate out of the request-handling
loop and kill the listener. -/
inductive Crash where
  | valueError
  | osError
  | nameError
  | keyError
  | typeError
deriving DecidableEq, Repr

/-- The locals of `HTTP.listen` that survive from one loop iteration to
the next: `content_type` and `data` are assigned conditionally, so on a
later connection they may still hold the previous request's values, and
on the first connection they are unbound (`none`). -/
structure Locals where
  contentType : Option String
  jdata : Option PyVal

/-- Result of handling one accepted connection: the emitted events, and
either the locals carried into the next iteration or a crash that
terminates the listener. -/
abbrev HRes := List Ev × Except Crash Locals

/-- Python subscription `d["state"]`: value lookup on a dict, `KeyError`
when the key is absent, `TypeError` when the value is not a dict. -/
def pyGetItem (v : PyVal) (k : String) : Except Crash PyVal :=
  match v with
  | .jobj entries =>
    match entries.lookup k with
    | some w => .ok w
    | none => .error .keyError
  | _ => .error .typeError

/-- Python equality `v == t` against a string literal: true exactly for
the equal string, false (no exception) for every other value. -/
def pyEqStr (v : PyVal) (t : String) : Bool :=
  match v with
  | .jstr s => s == t
  | _ => false

/-- Tail of `HTTP.listen` from `data = json.loads(content)` onwards, after
the data local has (or has not) been resolved: read `data["state"]`, fire
the buzzer on `"alerting"`, then `self._send(204)`.  `opn` records whether
the connection is still open (a second `_send` on a closed connection
raises `OSError`); `ct` is the current `content_type` local. -/
def handleData (ct : String) (dataLocal : Option PyVal) (opn : Bool) (evs : List Ev) : HRes :=
  match dataLocal with
  | none => (evs, .error .nameError)
  | some d =>
    match pyGetItem d "state" with
    | .error c => (evs, .error c)
    | .ok v =>
      let evs2 := if pyEqStr v "alerting" then evs ++ [Ev.buzz 5000 500 100] else evs
      if opn then (evs2 ++ [Ev.send 204], .ok ⟨some ct, some d⟩)
      else (evs2, .error .osError)

/-- Middle of `HTTP.listen` from `if content_type != "application/json"`
onwards, with the `content_type` local resolved to `ct`. -/
def handleCT (loads : String → Option PyVal) (st : Locals) (content : String)
    (opn : Bool) (evs : List Ev) (ct : String) : HRes :=
  if ct != "application/json" then
    if opn then (evs ++ [Ev.send 400], .ok ⟨some ct, st.jdata⟩)
    else (evs, .error .osError)
  else
    match loads content with
    | some d => handleData ct (some d) opn evs
    | none =>
      if opn then handleData ct st.jdata false (evs ++ [Ev.send 500])
      else (evs, .error .osError)

/-- Body of `HTTP.listen` after the request text has been split into
header lines and content: the POST check (`headers[0][0:4] != "POST"`),
the `Content-Type: ` header scan (falling through with the stale or
unbound `content_type` local when the header is missing, since the
`self._send(400)` there is not followed by `continue`), then `handleCT`. -/
def handleParsed (loads : String → Option PyVal) (st : Locals)
    (headers : List String) (content : String) : HRes :=
  if pyTake (headers.headD "") 4 != "POST" then
    ([Ev.send 405], .ok st)
  else
    let idx := getSubstringFromList headers "Content-Type: "
    if idx != -1 then
      handleCT loads st content true [] (pyDrop (headers.getD idx.toNat "") 14)
    else
      match st.contentType with
      | none => ([Ev.send 400], .error .nameError)
      | some ct => handleCT loads st content false [Ev.send 400] ct

/-- One iteration of the request-handling loop of `HTTP.listen`, applied
to the accumulated request text of one accepted connection.  `loads` is
the external JSON decoder collaborator, `st` the locals surviving from
the previous iteration. -/
def handleConn (loads : String → Option PyVal) (st : Locals) (request : String) : HRes :=
  match splitRequest request with
  | none => ([], .error .valueError)
  | some (headers, content) => handleParsed loads st headers content

/-- The three value types appearing in `settings_model`. -/
inductive PyType where
  | tStr
  | tInt
  | tBool
deriving DecidableEq, Repr

/-- A typed (or still raw) settings value. -/
inductive Value where
  | vStr (s : String)
  | vInt (n : Int)
  | vBool (b : Bool)
  | vNone
deriving DecidableEq, Repr

/-- The two regular expressions occurring in `settings_model`. -/
inductive RegexPat where
  | trueFalse
  | inetFam
deriving DecidableEq, Repr

/-- `re.compile(p).match(s)` for the two anchored patterns of the schema:
`^(TRUE|FALSE)$` and `^(INET|INET6)$` match exactly their alternatives. -/
def regexMatch (p : RegexPat) (s : String) : Bool :=
  match p with
  | .trueFalse => s == "TRUE" || s == "FALSE"
  | .inetFam => s == "INET" || s == "INET6"

/-- One entry of the declarative settings schema. -/
structure SchemaEntry where
  key : String
  type : PyType
  required : Bool
  required_if : Option String
  default : Value
  regex : Option RegexPat
deriving DecidableEq, Repr

/-- The `settings_model` schema of `readSettings`, in declaration order. -/
def settings_model : List SchemaEntry :=
  [ ⟨"SSID", .tStr, true, none, .vNone, none⟩,
    ⟨"KEY", .tStr, true, none, .vNone, none⟩,
    ⟨"MAX_CON", .tInt, false, none, .vInt 5, none⟩,
    ⟨"TIMEOUT", .tInt, false, none, .vInt 10, none⟩,
    ⟨"PORT", .tInt, false, none, .vInt 80, none⟩,
    ⟨"STATIC", .tBool, false, none, .vBool false, some .trueFalse⟩,
    ⟨"ADDR", .tStr, false, some "STATIC", .vNone, none⟩,
    ⟨"MASK", .tStr, false, some "STATIC", .vNone, none⟩,
    ⟨"GATEWAY", .tStr, false, some "STATIC", .vNone, none⟩,
    ⟨"ADDR_FAMILY", .tStr, false, some "STATIC", .vNone, some .inetFam⟩ ]

/-- The keys recognised by the schema. -/
def schemaKeys : List String :=
  settings_model.map SchemaEntry.key

/-- The settings dictionary: an association list kept with unique keys in
insertion order, like a Python dict. -/
abbrev Dict := List (String × Value)

/-- Python dict read `d[k]` as an option. -/
def dlookup (k : String) : Dict → Option Value
  | [] => none
  | (k', v) :: rest => if k' == k then some v else dlookup k rest

/-- Python dict write `d[k] = v`: replace in place if present, else append. -/
def dinsert (k : String) (v : Value) : Dict → Dict
  | [] => [(k, v)]
  | (k', v') :: rest =>
    if k' == k then (k, v) :: rest else (k', v') :: dinsert k v rest

/-- The keys of a dictionary, in order. -/
def dKeys : Dict → List String
  | [] => []
  | (k, _) :: rest => k :: dKeys rest

/-- Python truthiness of a settings value (`if settings[...]:`). -/
def pyTruthy : Value → Bool
  | .vStr s => !s.isEmpty
  | .vInt n => n != 0
  | .vBool b => b
  | .vNone => false

/-- Worker accumulating the value of a non-empty digit string. -/
def digitsValAux : Nat → List Char → Option Nat
  | acc, [] => some acc
  | acc, c :: rest =>
    if c.isDigit then digitsValAux (acc * 10 + (c.toNat - 48)) rest else none

/-- Whitespace stripped by Python `int()`. -/
def isWS (c : Char) : Bool :=
  c == ' ' || c == '\t' || c == '\n' || c == '\r'

/-- Python `int(s)` for base-10 literals: optional surrounding whitespace,
an optional sign, then a non-empty run of digits; everything else raises
`ValueError`, modelled as `none`. -/
def pyInt (s : String) : Option Int :=
  let core := ((s.data.dropWhile isWS).reverse.dropWhile isWS).reverse
  match core with
  | [] => none
  | c :: ds =>
    if c == '-' then
      match ds with
      | [] => none
      | _ => (digitsValAux 0 ds).map (fun n => -(n : Int))
    else if c == '+' then
      match ds with
      | [] => none
      | _ => (digitsValAux 0 ds).map (fun n => (n : Int))
    else
      (digitsValAux 0 (c :: ds)).map (fun n => (n : Int))

/-- The type-coercion step of the validation loop for a supplied raw
string: `settings[i] = settings[i].upper() == "TRUE"` for bool entries,
`settings[i] = settings_model[i]["type"](settings[i])` otherwise, where a
failing `int()` conversion is a fatal error. -/
def coerceStep (e : SchemaEntry) (raw : String) (s : Dict) : Except String Dict :=
  match e.type with
  | .tBool => .ok (dinsert e.key (.vBool (pyUpper raw == "TRUE")) s)
  | .tStr => .ok (dinsert e.key (.vStr raw) s)
  | .tInt =>
    match pyInt raw with
    | some n => .ok (dinsert e.key (.vInt n) s)
    | none => .error ("fatal: " ++ e.key ++ " is of wrong type")

/-- One iteration of the validation loop of `readSettings` for schema
entry `e` over the evolving settings dict `s`.  `.error` covers both
`fatal(...)` calls (which terminate the process) and uncaught exceptions;
the branches mirror the source line by line. -/
def validateEntry (e : SchemaEntry) (s : Dict) : Except String Dict :=
  match dlookup e.key s with
  | some v =>
    match v with
    | .vStr raw =>
      if e.regex.isSome && e.type == PyType.tStr then
        match e.regex with
        | some rx =>
          if regexMatch rx raw then coerceStep e raw s
          else .error ("fatal: value of " ++ e.key ++ " does not match regex")
        | none => coerceStep e raw s
      else coerceStep e raw s
    | _ => .error ("crash: supplied setting " ++ e.key ++ " is not a raw string")
  | none =>
    if e.required then .error ("fatal: required setting " ++ e.key ++ " not present")
    else
      match e.required_if with
      | some dep =>
        match dlookup dep s with
        | some dv =>
          if pyTruthy dv then
            .error ("fatal: setting " ++ e.key ++ " required as " ++ dep ++ " is set")
          else .ok (dinsert e.key e.default s)
        | none => .error ("crash: KeyError " ++ dep)
      | none => .ok (dinsert e.key e.default s)

/-- The validation loop: schema entries processed in declaration order,
stopping at the first fatal error. -/
def validateAll : List SchemaEntry → Dict → Except String Dict
  | [], s => .ok s
  | e :: rest, s =>
    match validateEntry e s with
    | .ok s' => validateAll rest s'
    | .error m => .error m

/-- Validation of a parsed settings dict against the whole schema. -/
def validateSettings (s : Dict) : Except String Dict :=
  validateAll settings_model s

/-- `i.replace("\n", "").replace("\r", "").split("=")` for one raw line of
the settings file. -/
def parseLine (i : String) : List String :=
  pySplit (pyReplace (pyReplace i "\n" "") "\r" "") "="

/-- The file-reading loop of `readSettings`: keep lines whose key is a
schema key (`line[0] in settings_model`), storing the raw string value
`line[1]` (an `IndexError` if the line has no `=`); other lines are
silently ignored. -/
def readLinesAux : Dict → List String → Except String Dict
  | acc, [] => .ok acc
  | acc, i :: rest =>
    let line := parseLine i
    if schemaKeys.contains (line.headD "") then
      match line.get? 1 with
      | some v => readLinesAux (dinsert (line.headD "") (.vStr v) acc) rest
      | none => .error "crash: IndexError"
    else readLinesAux acc rest

/-- Parse the raw lines of `settings.txt` into the initial settings dict. -/
def readLines (ls : List String) : Except String Dict :=
  readLinesAux [] ls

/-- `readSettings` of `alarm/utils.py`, modelled over the list of raw
lines of the settings file: parse, then validate. -/
def readSettings (ls : List String) : Except String Dict :=
  match readLines ls with
  | .ok s0 => validateSettings s0
  | .error m => .error m

/-- The value a supplied raw string coerces to for a given schema type
(`none` when `int()` fails, in which case validation is fatal). -/
def pyCoerce (ty : PyType) (raw : String) : Option Value :=
  match ty with
  | .tStr => some (.vStr raw)
  | .tBool => some (.vBool (pyUpper raw == "TRUE"))
  | .tInt => (pyInt raw).map Value.vInt

/-- Whether a validation run returned (rather than terminating with a
fatal error or an uncaught exception). -/
def exceptIsOk (r : Except String Dict) : Bool :=
  match r with
  | .ok _ => true
  | .error _ => false

/-! ### Helper lemmas about the dictionary model -/

theorem dlookup_dinsert_self (k : String) (v : Value) (d : Dict) :
    dlookup k (dinsert k v d) = some v := by
  induction d with
  | nil => simp [dinsert, dlookup]
  | cons p rest ih =>
    obtain ⟨k', v'⟩ := p
    by_cases h : k' = k
    · simp [dinsert, dlookup, h]
    · simp [dinsert, dlookup, h, ih]

theorem dlookup_dinsert_ne (k k' : String) (v : Value) (d : Dict) (h : k' ≠ k) :
    dlookup k' (dinsert k v d) = dlookup k' d := by
  induction d with
  | nil => simp [dinsert, dlookup, Ne.symm h]
  | cons p rest ih =>
    obtain ⟨k0, v0⟩ := p
    by_cases h0 : k0 = k
    · subst h0
      simp [dinsert, dlookup, Ne.symm h, h]
    · simp [dinsert, dlookup, h0, ih]

theorem mem_dKeys_dinsert (x k : String) (v : Value) (d : Dict)
    (h : x ∈ dKeys (dinsert k v d)) : x = k ∨ x ∈ dKeys d := by
  induction d with
  | nil => simpa [dinsert, dKeys] using h
  | cons p rest ih =>
    obtain ⟨k0, v0⟩ := p
    by_cases h0 : k0 = k
    · subst h0
      rcases (by simpa [dinsert, dKeys] using h) with h1 | h1
      · exact .inl h1
      · exact .inr (by simp [dKeys, h1])
    · rcases (by simpa [dinsert, dKeys, h0] using h) with h1 | h1
      · exact .inr (by simp [dKeys, h1])
      · rcases ih h1 with h2 | h2
        · exact .inl h2
        · exact .inr (by simp [dKeys, h2])

theorem nodup_dKeys_dinsert (k : String) (v : Value) (d : Dict)
    (h : (dKeys d).Nodup) : (dKeys (dinsert k v d)).Nodup := by
  induction d with
  | nil => simp [dinsert, dKeys]
  | cons p rest ih =>
    obtain ⟨k0, v0⟩ := p
    rw [dKeys, List.nodup_cons] at h
    by_cases h0 : k0 = k
    · subst h0
      rw [dinsert]
      simp only [beq_self_eq_true, if_pos]
      rw [dKeys, List.nodup_cons]
      exact h
    · rw [dinsert]
      simp only [beq_iff_eq, if_neg h0]
      rw [dKeys, List.nodup_cons]
      refine ⟨?_, ih h.2⟩
      intro hmem
      rcases mem_dKeys_dinsert k0 k v rest hmem with h1 | h1
      · exact h0 h1
      · exact h.1 h1

theorem dlookup_isSome_iff (k : String) (d : Dict) :
    (dlookup k d).isSome = true ↔ k ∈ dKeys d := by
  induction d with
  | nil => simp [dlookup, dKeys]
  | cons p rest ih =>
    obtain ⟨k0, v0⟩ := p
    by_cases h0 : k0 = k
    · simp [dlookup, dKeys, h0]
    · simp [dlookup, dKeys, h0, ih, Ne.symm h0]

/-! ### Helper lemmas about the validation loop -/

theorem coerceStep_shape (e : SchemaEntry) (raw : String) (s s' : Dict)
    (h : coerceStep e raw s = .ok s') :
    ∃ v, s' = dinsert e.key v s ∧ some v = pyCoerce e.type raw := by
  cases hty : e.type <;> rw [coerceStep, hty] at h
  · simp only [Except.ok.injEq] at h
    exact ⟨_, h.symm, by simp [pyCoerce]⟩
  · cases hint : pyInt raw <;> simp only [hint] at h
    · cases h
    · simp only [Except.ok.injEq] at h
      exact ⟨_, h.symm, by simp [pyCoerce, hint]⟩
  · simp only [Except.ok.injEq] at h
    exact ⟨_, h.symm, by simp [pyCoerce]⟩

theorem validateEntry_shape (e : SchemaEntry) (s s' : Dict)
    (h : validateEntry e s = .ok s') :
    ∃ v, s' = dinsert e.key v s ∧
      ((dlookup e.key s = none ∧ v = e.default) ∨
       (∃ raw, dlookup e.key s = some (.vStr raw) ∧ some v = pyCoerce e.type raw)) := by
  rw [validateEntry] at h
  cases hl : dlookup e.key s <;> simp only [hl] at h
  · by_cases hreq : e.required = true
    · rw [if_pos hreq] at h; cases h
    · rw [if_neg hreq] at h
      cases hri : e.required_if <;> simp only [hri] at h
      · exact ⟨_, (Except.ok.inj h).symm, .inl ⟨rfl, rfl⟩⟩
      · rename_i dep
        cases hdep : dlookup dep s <;> simp only [hdep] at h
        · cases h
        · rename_i dv
          by_cases htr : pyTruthy dv = true
          · rw [if_pos htr] at h; cases h
          · rw [if_neg htr] at h
            exact ⟨_, (Except.ok.inj h).symm, .inl ⟨rfl, rfl⟩⟩
  · rename_i v0
    cases v0 with
    | vStr raw =>
      simp only [] at h
      by_cases hg : (e.regex.isSome && e.type == PyType.tStr) = true
      · rw [if_pos hg] at h
        cases hrx : e.regex <;> simp only [hrx] at h
        · obtain ⟨v, hv1, hv2⟩ := coerceStep_shape e raw s s' h
          exact ⟨v, hv1, .inr ⟨raw, rfl, hv2⟩⟩
        · rename_i rx
          by_cases hm : regexMatch rx raw = true
          · rw [if_pos hm] at h
            obtain ⟨v, hv1, hv2⟩ := coerceStep_shape e raw s s' h
            exact ⟨v, hv1, .inr ⟨raw, rfl, hv2⟩⟩
          · rw [if_neg hm] at h; cases h
      · rw [if_neg hg] at h
        obtain ⟨v, hv1, hv2⟩ := coerceStep_shape e raw s s' h
        exact ⟨v, hv1, .inr ⟨raw, rfl, hv2⟩⟩
    | vInt n => simp only [] at h; cases h
    | vBool b => simp only [] at h; cases h
    | vNone => simp only [] at h; cases h

theorem validateEntry_preserve (e : SchemaEntry) (s s' : Dict) (k : String)
    (h : validateEntry e s = .ok s') (hk : k ≠ e.key) :
    dlookup k s' = dlookup k s := by
  obtain ⟨v, hv, _⟩ := validateEntry_shape e s s' h
  rw [hv, dlookup_dinsert_ne _ _ _ _ hk]

theorem validateAll_error (L : List SchemaEntry) (e : SchemaEntry) (s : Dict) (m : String)
    (h : validateEntry e s = .error m) :
    validateAll (e :: L) s = .error m := by
  rw [validateAll, h]

theorem validateAll_preserve (L : List SchemaEntry) (s d : Dict) (k : String)
    (hL : ∀ e ∈ L, e.key ≠ k) (h : validateAll L s = .ok d) :
    dlookup k d = dlookup k s := by
  induction L generalizing s with
  | nil => rw [validateAll] at h; cases h; rfl
  | cons e rest ih =>
    rw [validateAll] at h
    cases he : validateEntry e s <;> simp only [he] at h
    · cases h
    · rename_i s1
      have h1 := ih s1 (fun e2 h2 => hL e2 (List.mem_cons_of_mem e h2)) h
      rw [h1, validateEntry_preserve e s s1 k he (Ne.symm (hL e (List.mem_cons_self e rest)))]

theorem validateAll_keys (L : List SchemaEntry) (s d : Dict)
    (h : validateAll L s = .ok d) :
    ∀ x ∈ dKeys d, x ∈ L.map SchemaEntry.key ∨ x ∈ dKeys s := by
  induction L generalizing s with
  | nil => rw [validateAll] at h; cases h; exact fun x hx => .inr hx
  | cons e rest ih =>
    rw [validateAll] at h
    cases he : validateEntry e s <;> simp only [he] at h
    · cases h
    · rename_i s1
      intro x hx
      rcases ih s1 h x hx with h1 | h1
      · exact .inl (by simp [h1])
      · obtain ⟨v, hv, _⟩ := validateEntry_shape e s s1 he
        rw [hv] at h1
        rcases mem_dKeys_dinsert x e.key v s h1 with h2 | h2
        · exact .inl (by simp [h2])
        · exact .inr h2

theorem validateAll_nodup (L : List SchemaEntry) (s d : Dict)
    (hs : (dKeys s).Nodup) (h : validateAll L s = .ok d) : (dKeys d).Nodup := by
  induction L generalizing s with
  | nil => rw [validateAll] at h; cases h; exact hs
  | cons e rest ih =>
    rw [validateAll] at h
    cases he : validateEntry e s <;> simp only [he] at h
    · cases h
    · rename_i s1
      obtain ⟨v, hv, _⟩ := validateEntry_shape e s s1 he
      exact ih s1 (hv ▸ nodup_dKeys_dinsert e.key v s hs) h

theorem validateAll_main (L : List SchemaEntry) (s d : Dict)
    (hnd : (L.map SchemaEntry.key).Nodup) (h : validateAll L s = .ok d) :
    ∀ e ∈ L,
      (∃ v, dlookup e.key d = some v) ∧
      (dlookup e.key s = none → dlookup e.key d = some e.default) ∧
      (∀ raw, dlookup e.key s = some (.vStr raw) →
        dlookup e.key d = pyCoerce e.type raw) := by
  induction L generalizing s with
  | nil => intro e he; cases he
  | cons e0 rest ih =>
    rw [validateAll] at h
    cases he0 : validateEntry e0 s <;> simp only [he0] at h
    · cases h
    · rename_i s1
      rw [List.map_cons, List.nodup_cons] at hnd
      intro e he
      rcases List.mem_cons.mp he with rfl | hmem
      · have hpres : dlookup e.key d = dlookup e.key s1 := by
          refine validateAll_preserve rest s1 d e.key ?_ h
          intro e2 h2 hkey
          exact hnd.1 (hkey ▸ List.mem_map_of_mem SchemaEntry.key h2)
        obtain ⟨v, hv, hprov⟩ := validateEntry_shape e s s1 he0
        have hself : dlookup e.key s1 = some v := by
          rw [hv]; exact dlookup_dinsert_self e.key v s
        refine ⟨⟨v, by rw [hpres, hself]⟩, ?_, ?_⟩
        · intro habs
          rcases hprov with ⟨_, rfl⟩ | ⟨raw, hraw, _⟩
          · rw [hpres, hself]
          · rw [habs] at hraw; cases hraw
        · intro raw hraw
          rcases hprov with ⟨habs, _⟩ | ⟨raw', hraw', hco⟩
          · rw [habs] at hraw; cases hraw
          · rw [hraw] at hraw'
            injection hraw' with hraw2
            injection hraw2 with hraw3
            subst hraw3
            rw [hpres, hself, hco]
      · have hkeep : dlookup e.key s1 = dlookup e.key s := by
          refine validateEntry_preserve e0 s s1 e.key he0 ?_
          intro hkey
          exact hnd.1 (hkey ▸ List.mem_map_of_mem SchemaEntry.key hmem)
        have hrec := ih s1 hnd.2 h e hmem
        rw [hkeep] at hrec
        exact hrec

/-! ### Helper lemmas about splitting -/

theorem leadsWith_iff (p l : List Char) :
    leadsWith p l = true ↔ ∃ t, l = p ++ t := by
  induction p generalizing l with
  | nil => simp [leadsWith]
  | cons a as ih =>
    cases l with
    | nil => simp [leadsWith]
    | cons b bs =>
      rw [leadsWith, Bool.and_eq_true, beq_iff_eq, ih]
      constructor
      · rintro ⟨rfl, t, rfl⟩
        exact ⟨t, rfl⟩
      · rintro ⟨t, ht⟩
        injection ht with h1 h2
        exact ⟨h1.symm, t, h2⟩

theorem drop_of_append (sep t : List Char) (c : Char) (rest : List Char)
    (hsep : sep ≠ []) (h : c :: rest = sep ++ t) :
    List.drop (sep.length - 1) rest = t := by
  cases sep with
  | nil => exact absurd rfl hsep
  | cons a as =>
    injection h with h1 h2
    rw [h2]
    simp

theorem splitChF_ne_nil (sep : List Char) (fuel : Nat) (l : List Char) :
    splitChF sep fuel l ≠ [] := by
  cases fuel with
  | zero => cases l <;> simp [splitChF]
  | succ f =>
    cases l with
    | nil => simp [splitChF]
    | cons c rest =>
      rw [splitChF]
      split
      · simp
      · split <;> simp

theorem joinSep_splitChF (sep : List Char) (hsep : sep ≠ []) (fuel : Nat) :
    ∀ l : List Char, l.length ≤ fuel → joinSep sep (splitChF sep fuel l) = l := by
  induction fuel with
  | zero =>
    intro l hl
    rw [List.length_eq_zero.mp (Nat.le_zero.mp hl)]
    simp [splitChF, joinSep]
  | succ f ih =>
    intro l hl
    cases l with
    | nil => simp [splitChF, joinSep]
    | cons c rest =>
      rw [splitChF]
      by_cases hc : (sep != [] && leadsWith sep (c :: rest)) = true
      · rw [if_pos hc]
        obtain ⟨t, ht⟩ := (leadsWith_iff sep (c :: rest)).mp (Bool.and_elim_right hc)
        have hdrop : List.drop (sep.length - 1) rest = t :=
          drop_of_append sep t c rest hsep ht
        rw [hdrop]
        have hlen : t.length ≤ f := by
          have : (c :: rest).length = sep.length + t.length := by rw [ht]; simp
          have hs1 : 1 ≤ sep.length := by
            cases sep with
            | nil => exact absurd rfl hsep
            | cons _ _ => simp
          simp only [List.length_cons] at this hl
          omega
        have hne := splitChF_ne_nil sep f t
        cases hsp : splitChF sep f t with
        | nil => exact absurd hsp hne
        | cons r rs =>
          have hred : joinSep sep ([] :: r :: rs) = [] ++ sep ++ joinSep sep (r :: rs) := rfl
          rw [hred]
          have hj : joinSep sep (r :: rs) = t := by
            rw [← hsp]
            exact ih t hlen
          rw [hj]
          simp only [List.nil_append]
          exact ht.symm
      · rw [if_neg hc]
        have hlen : rest.length ≤ f := by
          simp only [List.length_cons] at hl
          omega
        have hne := splitChF_ne_nil sep f rest
        cases hsp : splitChF sep f rest with
        | nil => exact absurd hsp hne
        | cons r rs =>
          have hj : joinSep sep (r :: rs) = rest := by
            rw [← hsp]
            exact ih rest hlen
          cases rs with
          | nil =>
            have hred : joinSep sep [r] = r := rfl
            rw [hred] at hj
            show c :: r = c :: rest
            rw [hj]
          | cons y ys =>
            have hred : joinSep sep (r :: y :: ys) = r ++ sep ++ joinSep sep (y :: ys) := rfl
            rw [hred] at hj
            show (c :: r) ++ sep ++ joinSep sep (y :: ys) = c :: rest
            rw [List.cons_append, List.cons_append, hj]

theorem splitChF_headD_leading (sep : List Char) (fuel : Nat) :
    ∀ l : List Char, ∃ t, l = (splitChF sep fuel l).headD [] ++ t := by
  induction fuel with
  | zero =>
    intro l
    cases l with
    | nil => exact ⟨[], rfl⟩
    | cons c rest => exact ⟨[], by simp [splitChF]⟩
  | succ f ih =>
    intro l
    cases l with
    | nil => exact ⟨[], rfl⟩
    | cons c rest =>
      rw [splitChF]
      by_cases hc : (sep != [] && leadsWith sep (c :: rest)) = true
      · rw [if_pos hc]
        exact ⟨c :: rest, rfl⟩
      · rw [if_neg hc]
        have hne := splitChF_ne_nil sep f rest
        cases hsp : splitChF sep f rest with
        | nil => exact absurd hsp hne
        | cons r rs =>
          obtain ⟨t, ht⟩ := ih rest
          rw [hsp] at ht
          exact ⟨t, by simpa using congrArg (List.cons c) ht⟩

theorem splitChF_headD_no_sub (sep : List Char) (hsep : sep ≠ []) (fuel : Nat) :
    ∀ l : List Char, l.length ≤ fuel →
      hasSub sep ((splitChF sep fuel l).headD []) = false := by
  induction fuel with
  | zero =>
    intro l hl
    rw [List.length_eq_zero.mp (Nat.le_zero.mp hl)]
    cases sep with
    | nil => exact absurd rfl hsep
    | cons a as => simp [splitChF, hasSub, leadsWith]
  | succ f ih =>
    intro l hl
    cases l with
    | nil =>
      cases sep with
      | nil => exact absurd rfl hsep
      | cons a as => simp [splitChF, hasSub, leadsWith]
    | cons c rest =>
      rw [splitChF]
      by_cases hc : (sep != [] && leadsWith sep (c :: rest)) = true
      · rw [if_pos hc]
        cases sep with
        | nil => exact absurd rfl hsep
        | cons a as => simp [hasSub, leadsWith]
      · rw [if_neg hc]
        have hne := splitChF_ne_nil sep f rest
        cases hsp : splitChF sep f rest with
        | nil => exact absurd hsp hne
        | cons r rs =>
          have hlen : rest.length ≤ f := by
            simp only [List.length_cons] at hl
            omega
          have hihr : hasSub sep r = false := by
            have := ih rest hlen
            rwa [hsp] at this
          simp only [List.headD_cons]
          rw [hasSub, hihr, Bool.or_false]
          by_cases hlw : leadsWith sep (c :: r) = true
          · exfalso
            obtain ⟨t1, ht1⟩ := (leadsWith_iff sep (c :: r)).mp hlw
            obtain ⟨t2, ht2⟩ := splitChF_headD_leading sep f rest
            rw [hsp] at ht2
            simp only [List.headD_cons] at ht2
            have : leadsWith sep (c :: rest) = true := by
              rw [leadsWith_iff]
              refine ⟨t1 ++ t2, ?_⟩
              rw [← List.append_assoc, ← ht1, List.cons_append, ← ht2]
            rw [Bool.and_eq_true] at hc
            push_neg at hc
            have hb : (sep != []) = true := by
              simpa [bne_iff_ne] using hsep
            exact (hc hb).elim (by rw [this])
          · simpa using hlw

/-! ### String-level lemmas -/

theorem pyTake_post (t : String) : pyTake ("POST " ++ t) 4 = "POST" := by
  rw [pyTake, String.data_append]
  have h1 : "POST ".data = ['P', 'O', 'S', 'T', ' '] := rfl
  rw [h1]
  have h2 : List.take 4 (['P', 'O', 'S', 'T', ' '] ++ t.data) = ['P', 'O', 'S', 'T'] := rfl
  rw [h2]

theorem pySplit_two (r h c : String) (hsp : pySplit r BLANK = [h, c]) :
    r = h ++ BLANK ++ c ∧ strContains h BLANK = false := by
  rw [pySplit] at hsp
  have hblank : BLANK.data ≠ [] := by decide
  cases hl : splitChF BLANK.data r.data.length r.data with
  | nil => exact absurd hl (splitChF_ne_nil _ _ _)
  | cons p ps =>
    cases ps with
    | nil => rw [hl] at hsp; cases hsp
    | cons q qs =>
      cases qs with
      | nil =>
        rw [hl] at hsp
        simp only [List.map_cons, List.map_nil, List.cons.injEq, and_true] at hsp
        obtain ⟨hp, hq⟩ := hsp
        have hjoin : joinSep BLANK.data (splitChF BLANK.data r.data.length r.data) = r.data :=
          joinSep_splitChF BLANK.data hblank r.data.length r.data (Nat.le_refl _)
        rw [hl] at hjoin
        have hred : joinSep BLANK.data [p, q] = p ++ BLANK.data ++ q := rfl
        rw [hred] at hjoin
        constructor
        · apply String.ext
          rw [String.data_append, String.data_append, ← hjoin, ← hp, ← hq]
        · have hhead := splitChF_headD_no_sub BLANK.data hblank r.data.length r.data
            (Nat.le_refl _)
          rw [hl] at hhead
          simp only [List.headD_cons] at hhead
          rw [strContains, ← hp]
          exact hhead
      | cons _ _ => rw [hl] at hsp; cases hsp

/-! ### No 405 after the method check passes -/

theorem handleData_no405 (ct : String) (dl : Option PyVal) (opn : Bool) (evs : List Ev)
    (h : Ev.send 405 ∉ evs) : Ev.send 405 ∉ (handleData ct dl opn evs).1 := by
  cases dl with
  | none => simpa only [handleData] using h
  | some d =>
    cases hg : pyGetItem d "state" with
    | error c =>
      simp only [handleData, hg]
      exact h
    | ok v =>
      simp only [handleData, hg]
      by_cases ha : pyEqStr v "alerting" = true <;>
        cases opn <;>
          simp_all [List.mem_append]

theorem handleCT_no405 (loads : String → Option PyVal) (st : Locals) (content : String)
    (opn : Bool) (evs : List Ev) (ct : String)
    (h : Ev.send 405 ∉ evs) : Ev.send 405 ∉ (handleCT loads st content opn evs ct).1 := by
  rw [handleCT]
  by_cases hct : (ct != "application/json") = true
  · rw [if_pos hct]
    cases opn <;> simp_all [List.mem_append]
  · rw [if_neg hct]
    cases loads content with
    | some d => exact handleData_no405 ct (some d) opn evs h
    | none =>
      cases opn with
      | true =>
        refine handleData_no405 ct st.jdata false (evs ++ [Ev.send 500]) ?_
        simp_all [List.mem_append]
      | false => exact h

/-! ### More validation and parsing lemmas -/

theorem validateAll_append (L1 L2 : List SchemaEntry) (s : Dict) :
    validateAll (L1 ++ L2) s =
      match validateAll L1 s with
      | .ok s1 => validateAll L2 s1
      | .error m => .error m := by
  induction L1 generalizing s with
  | nil => rw [List.nil_append, validateAll]
  | cons e rest ih =>
    rw [List.cons_append, validateAll, validateAll]
    cases validateEntry e s <;> simp [ih]

theorem readLinesAux_keys (ls : List String) :
    ∀ acc s0, readLinesAux acc ls = .ok s0 →
      ∀ x ∈ dKeys s0, x ∈ dKeys acc ∨ x ∈ schemaKeys := by
  induction ls with
  | nil =>
    intro acc s0 h
    rw [readLinesAux] at h
    cases h
    exact fun x hx => .inl hx
  | cons i rest ih =>
    intro acc s0 h
    rw [readLinesAux] at h
    by_cases hk : schemaKeys.contains ((parseLine i).headD "") = true
    · rw [if_pos hk] at h
      cases hget : (parseLine i).get? 1 with
      | none => simp only [hget] at h; cases h
      | some v =>
        simp only [hget] at h
        intro x hx
        rcases ih _ s0 h x hx with h1 | h1
        · rcases mem_dKeys_dinsert x _ _ acc h1 with h2 | h2
          · refine .inr ?_
            rw [h2]
            exact List.mem_of_elem_eq_true hk
          · exact .inl h2
        · exact .inr h1
    · rw [if_neg hk] at h
      exact ih acc s0 h

theorem readLinesAux_nodup (ls : List String) :
    ∀ acc s0, (dKeys acc).Nodup → readLinesAux acc ls = .ok s0 →
      (dKeys s0).Nodup := by
  induction ls with
  | nil =>
    intro acc s0 hnd h
    rw [readLinesAux] at h
    cases h
    exact hnd
  | cons i rest ih =>
    intro acc s0 hnd h
    rw [readLinesAux] at h
    by_cases hk : schemaKeys.contains ((parseLine i).headD "") = true
    · rw [if_pos hk] at h
      cases hget : (parseLine i).get? 1 with
      | none => simp only [hget] at h; cases h
      | some v =>
        simp only [hget] at h
        exact ih _ s0 (nodup_dKeys_dinsert _ _ acc hnd) h
    · rw [if_neg hk] at h
      exact ih acc s0 hnd h

/-! ### Claim theorems -/

/-- C2.  The claim says every accepted connection receives exactly one
status line and the listener loop then continues unconditionally, with no
request-handling path crashing the listener.  The code violates this:
(1) a POST without a `Content-Type` header gets a 400 but then, because
the `self._send(400)` is not followed by `continue`, execution reads the
never-assigned `content_type` local and raises, killing the listener;
(2) the same request on a connection after one whose content type was
stale-bound attempts a second send on the already-closed socket, raising
`OSError`; (3) a request without the blank-line marker crashes the
destructuring `request.split` before any status line is sent at all. -/
theorem c2_single_response_violation :
    handleConn (fun _ => none) ⟨none, none⟩
      "POST / HTTP/1.1\r\nHost: a\r\n\r\n\x7b\x7d"
      = ([Ev.send 400], .error .nameError) ∧
    handleConn (fun _ => none) ⟨some "text/html", none⟩
      "POST / HTTP/1.1\r\nHost: a\r\n\r\n\x7b\x7d"
      = ([Ev.send 400], .error .osError) ∧
    handleConn (fun _ => none) ⟨none, none⟩ "POST / HTTP/1.1"
      = ([], .error .valueError) :=
  ⟨rfl, rfl, rfl⟩

/-- C3.  A POST with content type `application/json` whose body parses to
an object without a `state` field makes `data["state"]` raise an uncaught
`KeyError`: no response is sent and the listener dies, contrary to the
claim that such requests are treated as normal with a 204.  (The other
half of the claim is accurate: a present `state` value other than
`"alerting"` yields a 204 with no buzz, second conjunct.) -/
theorem c3_missing_state_keyerror :
    handleConn
      (fun s => if s == "\x7b\"a\":1\x7d" then some (.jobj [("a", .jnum 1)]) else none)
      ⟨none, none⟩
      "POST / HTTP/1.1\r\nContent-Type: application/json\r\n\r\n\x7b\"a\":1\x7d"
      = ([], .error .keyError) ∧
    handleConn
      (fun s => if s == "\x7b\"state\":\"idle\"\x7d"
        then some (.jobj [("state", .jstr "idle")]) else none)
      ⟨none, none⟩
      "POST / HTTP/1.1\r\nContent-Type: application/json\r\n\r\n\x7b\"state\":\"idle\"\x7d"
      = ([Ev.send 204],
         .ok ⟨some "application/json", some (.jobj [("state", .jstr "idle")])⟩) :=
  ⟨rfl, rfl⟩

/-- C5.  The read loop's break condition tests the two-character `b"\r\n"`,
not the four-character blank-line marker: a chunk holding only header
lines (no blank-line marker) already terminates the loop, so the second
chunk of a fragmented request is never read and the subsequent split
fails.  This contradicts the claim (and the dead `chunk == b"\r\n"`
disjunct shows the four-character check was the intent). -/
theorem c5_two_byte_break :
    readBreak "POST /a HTTP/1.1\r\nHost: h\r\n" = true ∧
    strContains "POST /a HTTP/1.1\r\nHost: h\r\n" BLANK = false ∧
    readRequest ["POST /a HTTP/1.1\r\nHost: h\r\n",
      "Content-Type: application/json\r\n\r\n\x7b\"state\":\"alerting\"\x7d"]
      = "POST /a HTTP/1.1\r\nHost: h\r\n" ∧
    splitRequest "POST /a HTTP/1.1\r\nHost: h\r\n" = none :=
  ⟨rfl, rfl, rfl, rfl⟩

/-- C8.  With `STATIC=yes` (and the required `SSID`/`KEY` present),
validation succeeds and silently coerces STATIC to `false`, because the
regex branch fires only when the schema type is `str`, so STATIC's
declared `^(TRUE|FALSE)$` pattern is never checked (second conjunct: the
raw value indeed fails that pattern).  The claim (and the schema's own
regex field) require a fatal error instead. -/
theorem c8_static_regex_skipped :
    readSettings ["SSID=a", "KEY=b", "STATIC=yes"] = .ok
      [("SSID", .vStr "a"), ("KEY", .vStr "b"), ("STATIC", .vBool false),
       ("MAX_CON", .vInt 5), ("TIMEOUT", .vInt 10), ("PORT", .vInt 80),
       ("ADDR", .vNone), ("MASK", .vNone), ("GATEWAY", .vNone),
       ("ADDR_FAMILY", .vNone)] ∧
    regexMatch .trueFalse "yes" = false :=
  ⟨rfl, rfl⟩

/-- C4 counterexample.  A terminated buffer that contains the blank-line
marker twice (a body itself containing the marker) makes the split raise
`ValueError` instead of splitting at the first occurrence, refuting the
claim that the split succeeds for any buffer containing the marker. -/
theorem c4_split_cex :
    strContains "A: B\r\n\r\nX\r\n\r\nY" BLANK = true ∧
    splitRequest "A: B\r\n\r\nX\r\n\r\nY" = none :=
  ⟨rfl, rfl⟩

/-- C6 counterexample.  A request whose method token is `POSTER` (not
`POST`) passes the `headers[0][0:4]` check and is fully processed to a
204, instead of the 405 the claim requires for every method other than
exactly `POST`. -/
theorem c6_poster_cex :
    (pySplit "POSTER /a HTTP/1.1" " ").headD "" = "POSTER" ∧
    handleConn (fun _ => some (.jobj [("state", .jstr "idle")])) ⟨none, none⟩
      "POSTER /a HTTP/1.1\r\nContent-Type: application/json\r\n\r\n\x7b\"state\":\"idle\"\x7d"
      = ([Ev.send 204],
         .ok ⟨some "application/json", some (.jobj [("state", .jstr "idle")])⟩) :=
  ⟨rfl, rfl⟩

/-- C7.  Round-trip of the status table: every code in `CODES`, encoded
by `HTTP._send`, produces exactly the single status line
`HTTP/1.1 <code> <reason> \r\n\r\n` (no further headers, no body), and
stripping the fixed prefix and suffix recovers `<code> <reason>`
verbatim. -/
theorem c7_status_roundtrip :
    ∀ p ∈ CODES,
      sendLine p.1 = some ("HTTP/1.1 " ++ (toString p.1 ++ " " ++ p.2) ++ " \r\n\r\n") ∧
      decodeStatus ("HTTP/1.1 " ++ (toString p.1 ++ " " ++ p.2) ++ " \r\n\r\n")
        = toString p.1 ++ " " ++ p.2 := by
  decide

/-- C7 witness at code 204. -/
theorem c7_status_roundtrip_witness :
    sendLine 204 = some "HTTP/1.1 204 No Content \r\n\r\n" ∧
    decodeStatus "HTTP/1.1 204 No Content \r\n\r\n" = "204 No Content" := by
  have h := c7_status_roundtrip (204, "No Content") (by decide)
  exact ⟨h.1, h.2⟩

/-- C4 amended.  When the destructuring split succeeds (which it does
exactly when splitting on the marker yields two parts), the buffer
decomposes as a header block, the marker, and the body, with no marker
occurrence inside the header block — so the cut is at the first
occurrence — and the header block is split on single line terminators
into the ordered header lines.  A buffer with further marker occurrences
in the body does not land in the body but makes the split raise
(`c4_split_cex`). -/
theorem c4_first_split_sound (r : String) (hl : List String) (body : String)
    (h : splitRequest r = some (hl, body)) :
    ∃ hb, r = hb ++ BLANK ++ body ∧ hl = pySplit hb CRLF ∧
      strContains hb BLANK = false := by
  rw [splitRequest] at h
  cases hsp : pySplit r BLANK with
  | nil => simp only [hsp] at h; cases h
  | cons p ps =>
    cases ps with
    | nil => simp only [hsp] at h; cases h
    | cons q qs =>
      cases qs with
      | nil =>
        simp only [hsp, Option.some.injEq] at h
        obtain ⟨h1, h2⟩ := Prod.mk.inj h
        obtain ⟨hr, hcont⟩ := pySplit_two r p q hsp
        exact ⟨p, h2 ▸ hr, h1.symm, hcont⟩
      | cons _ _ => simp only [hsp] at h; cases h

/-- C4 witness: a concrete single-marker buffer. -/
theorem c4_first_split_sound_witness :
    ∃ hb, ("H: v\r\n\r\nbody" : String) = hb ++ BLANK ++ "body" ∧
      (["H: v"] : List String) = pySplit hb CRLF ∧
      strContains hb BLANK = false :=
  c4_first_split_sound "H: v\r\n\r\nbody" ["H: v"] "body" rfl

/-- C6 amended.  The method gate of the dispatcher compares only the
first four characters of the first header line with `POST`: whenever that
prefix differs, the connection gets exactly a 405 with no further
processing (header lookup, body parsing, buzzer are all skipped and the
locals are untouched); whenever the prefix is `POST` — which includes
methods like `POSTER`, see `c6_poster_cex` — processing continues and no
405 is ever sent on that connection. -/
theorem c6_prefix_check (loads : String → Option PyVal) (st : Locals) (r : String)
    (headers : List String) (content : String)
    (h : splitRequest r = some (headers, content)) :
    (pyTake (headers.headD "") 4 ≠ "POST" →
      handleConn loads st r = ([Ev.send 405], .ok st)) ∧
    (pyTake (headers.headD "") 4 = "POST" →
      Ev.send 405 ∉ (handleConn loads st r).1) := by
  constructor
  · intro hm
    rw [handleConn]
    simp only [h]
    rw [handleParsed, if_pos (by simpa [bne_iff_ne] using hm)]
  · intro hm
    rw [handleConn]
    simp only [h]
    rw [handleParsed, if_neg (by rw [hm]; simp)]
    by_cases hidx : (getSubstringFromList headers "Content-Type: " != -1) = true
    · rw [if_pos hidx]
      exact handleCT_no405 loads st content true [] _ (by simp)
    · rw [if_neg hidx]
      cases st.contentType with
      | none => simp
      | some ct =>
        exact handleCT_no405 loads st content false [Ev.send 400] ct (by simp)

/-- C6 amended witness: a GET request gets exactly one 405 and the locals
are untouched. -/
theorem c6_prefix_check_witness :
    handleConn (fun _ => none) ⟨none, none⟩
      "GET /a HTTP/1.1\r\nHost: h\r\n\r\nbody"
      = ([Ev.send 405], .ok ⟨none, none⟩) :=
  (c6_prefix_check (fun _ => none) ⟨none, none⟩
      "GET /a HTTP/1.1\r\nHost: h\r\n\r\nbody"
      ["GET /a HTTP/1.1", "Host: h"] "body" rfl).1 (by decide)

/-- C1.  For a connection whose parsed request is a POST (the first
header line is `POST ` followed by the rest of the request line), whose
first header line containing `Content-Type: ` carries exactly the value
`application/json` after the 14-character prefix, and whose body is the
JSON object with a `state` field equal to `"alerting"`, the dispatcher
fires the buzzer collaborator exactly once with the fixed pattern
(5000 ms, 500 ms on, 100 ms off) and then sends status 204; the listener
then continues with the next connection. -/
theorem c1_alerting_dispatch (loads : String → Option PyVal) (st : Locals)
    (r : String) (headers : List String) (content tail : String) (n : Nat)
    (hsplit : splitRequest r = some (headers, content))
    (hpost : headers.headD "" = "POST " ++ tail)
    (hidx : getSubstringFromList headers "Content-Type: " = Int.ofNat n)
    (hval : pyDrop (headers.getD n "") 14 = "application/json")
    (hbody : content = "\x7b\"state\":\"alerting\"\x7d")
    (hload : loads content = some (.jobj [("state", .jstr "alerting")])) :
    handleConn loads st r
      = ([Ev.buzz 5000 500 100, Ev.send 204],
         .ok ⟨some "application/json",
              some (.jobj [("state", .jstr "alerting")])⟩) := by
  rw [handleConn]
  simp only [hsplit]
  rw [handleParsed, hpost, pyTake_post,
    if_neg (by simp), hidx,
    if_pos (by rw [bne_iff_ne]; intro hc; rw [Int.ofNat_eq_natCast] at hc; omega)]
  have htn : (Int.ofNat n).toNat = n := rfl
  rw [htn, hval, handleCT, if_neg (by simp), hload]
  rfl

/-- C1 witness: a concrete alerting request on a fresh connection. -/
theorem c1_alerting_dispatch_witness :
    handleConn
      (fun s => if s == "\x7b\"state\":\"alerting\"\x7d"
        then some (.jobj [("state", .jstr "alerting")]) else none)
      ⟨none, none⟩
      "POST /alert HTTP/1.1\r\nContent-Type: application/json\r\n\r\n\x7b\"state\":\"alerting\"\x7d"
      = ([Ev.buzz 5000 500 100, Ev.send 204],
         .ok ⟨some "application/json",
              some (.jobj [("state", .jstr "alerting")])⟩) :=
  c1_alerting_dispatch
    (fun s => if s == "\x7b\"state\":\"alerting\"\x7d"
      then some (.jobj [("state", .jstr "alerting")]) else none)
    ⟨none, none⟩
    "POST /alert HTTP/1.1\r\nContent-Type: application/json\r\n\r\n\x7b\"state\":\"alerting\"\x7d"
    ["POST /alert HTTP/1.1", "Content-Type: application/json"]
    "\x7b\"state\":\"alerting\"\x7d" "/alert HTTP/1.1" 1
    rfl rfl rfl rfl rfl rfl

/-- C9.  Conditional requirement on ADDR: (1) any settings input that
supplies `STATIC` as the raw string `TRUE` and omits `ADDR` never
validates successfully (the run terminates with a fatal error — at the
ADDR step if nothing failed earlier); (2) any input with `STATIC`
supplied as `FALSE` or omitted (defaulted to false) and `ADDR` omitted
that validates successfully maps `ADDR` to its schema default (the
absence value); (3) such a successful run exists concretely. -/
theorem c9_static_addr_conditional :
    (∀ s : Dict, dlookup "STATIC" s = some (.vStr "TRUE") →
      dlookup "ADDR" s = none → exceptIsOk (validateSettings s) = false) ∧
    (∀ (s d : Dict),
      (dlookup "STATIC" s = some (.vStr "FALSE") ∨ dlookup "STATIC" s = none) →
      dlookup "ADDR" s = none → validateSettings s = .ok d →
      dlookup "ADDR" d = some .vNone) ∧
    (readSettings ["SSID=a", "KEY=b", "STATIC=FALSE"] = .ok
      [("SSID", .vStr "a"), ("KEY", .vStr "b"), ("STATIC", .vBool false),
       ("MAX_CON", .vInt 5), ("TIMEOUT", .vInt 10), ("PORT", .vInt 80),
       ("ADDR", .vNone), ("MASK", .vNone), ("GATEWAY", .vNone),
       ("ADDR_FAMILY", .vNone)] ∧
     dlookup "ADDR"
      [("SSID", .vStr "a"), ("KEY", .vStr "b"), ("STATIC", .vBool false),
       ("MAX_CON", .vInt 5), ("TIMEOUT", .vInt 10), ("PORT", .vInt 80),
       ("ADDR", .vNone), ("MASK", .vNone), ("GATEWAY", .vNone),
       ("ADDR_FAMILY", .vNone)] = some .vNone) := by
  have hdec : settings_model =
      ([⟨"SSID", .tStr, true, none, .vNone, none⟩,
        ⟨"KEY", .tStr, true, none, .vNone, none⟩,
        ⟨"MAX_CON", .tInt, false, none, .vInt 5, none⟩,
        ⟨"TIMEOUT", .tInt, false, none, .vInt 10, none⟩,
        ⟨"PORT", .tInt, false, none, .vInt 80, none⟩] : List SchemaEntry) ++
      (⟨"STATIC", .tBool, false, none, .vBool false, some .trueFalse⟩ ::
       ⟨"ADDR", .tStr, false, some "STATIC", .vNone, none⟩ ::
       [⟨"MASK", .tStr, false, some "STATIC", .vNone, none⟩,
        ⟨"GATEWAY", .tStr, false, some "STATIC", .vNone, none⟩,
        ⟨"ADDR_FAMILY", .tStr, false, some "STATIC", .vNone, some .inetFam⟩]) := rfl
  refine ⟨?_, ?_, rfl, rfl⟩
  · intro s hst haddr
    rw [validateSettings, hdec, validateAll_append]
    cases h1 : validateAll
        [⟨"SSID", .tStr, true, none, .vNone, none⟩,
         ⟨"KEY", .tStr, true, none, .vNone, none⟩,
         ⟨"MAX_CON", .tInt, false, none, .vInt 5, none⟩,
         ⟨"TIMEOUT", .tInt, false, none, .vInt 10, none⟩,
         ⟨"PORT", .tInt, false, none, .vInt 80, none⟩] s with
    | error m => rfl
    | ok s1 =>
      simp only []
      have hst1 : dlookup "STATIC" s1 = some (.vStr "TRUE") := by
        rw [validateAll_preserve _ s s1 "STATIC" (by decide) h1, hst]
      have ha1 : dlookup "ADDR" s1 = none := by
        rw [validateAll_preserve _ s s1 "ADDR" (by decide) h1, haddr]
      rw [validateAll]
      have heS : validateEntry
          ⟨"STATIC", .tBool, false, none, .vBool false, some .trueFalse⟩ s1
          = .ok (dinsert "STATIC" (.vBool true) s1) := by
        rw [validateEntry, hst1]
        rfl
      simp only [heS]
      rw [validateAll]
      have hane : dlookup "ADDR" (dinsert "STATIC" (.vBool true) s1) = none := by
        rw [dlookup_dinsert_ne _ _ _ _ (by decide), ha1]
      have heA : validateEntry
          ⟨"ADDR", .tStr, false, some "STATIC", .vNone, none⟩
          (dinsert "STATIC" (.vBool true) s1)
          = .error ("fatal: setting " ++ "ADDR" ++ " required as " ++ "STATIC" ++ " is set") := by
        rw [validateEntry]
        simp [hane, dlookup_dinsert_self, pyTruthy]
      simp only [heA]
      rfl
  · intro s d hst haddr hok
    rw [validateSettings, hdec, validateAll_append] at hok
    cases h1 : validateAll
        [⟨"SSID", .tStr, true, none, .vNone, none⟩,
         ⟨"KEY", .tStr, true, none, .vNone, none⟩,
         ⟨"MAX_CON", .tInt, false, none, .vInt 5, none⟩,
         ⟨"TIMEOUT", .tInt, false, none, .vInt 10, none⟩,
         ⟨"PORT", .tInt, false, none, .vInt 80, none⟩] s with
    | error m => rw [h1] at hok; cases hok
    | ok s1 =>
      rw [h1] at hok
      simp only [] at hok
      have ha1 : dlookup "ADDR" s1 = none := by
        rw [validateAll_preserve _ s s1 "ADDR" (by decide) h1, haddr]
      rw [validateAll] at hok
      have heS : validateEntry
          ⟨"STATIC", .tBool, false, none, .vBool false, some .trueFalse⟩ s1
          = .ok (dinsert "STATIC" (.vBool false) s1) := by
        rcases hst with hstf | hstn
        · have hst1 : dlookup "STATIC" s1 = some (.vStr "FALSE") := by
            rw [validateAll_preserve _ s s1 "STATIC" (by decide) h1, hstf]
          rw [validateEntry, hst1]
          rfl
        · have hst1 : dlookup "STATIC" s1 = none := by
            rw [validateAll_preserve _ s s1 "STATIC" (by decide) h1, hstn]
          rw [validateEntry, hst1]
          rfl
      simp only [heS] at hok
      rw [validateAll] at hok
      have hane : dlookup "ADDR" (dinsert "STATIC" (.vBool false) s1) = none := by
        rw [dlookup_dinsert_ne _ _ _ _ (by decide), ha1]
      have heA : validateEntry
          ⟨"ADDR", .tStr, false, some "STATIC", .vNone, none⟩
          (dinsert "STATIC" (.vBool false) s1)
          = .ok (dinsert "ADDR" .vNone (dinsert "STATIC" (.vBool false) s1)) := by
        rw [validateEntry]
        simp [hane, dlookup_dinsert_self, pyTruthy]
      simp only [heA] at hok
      rw [validateAll_preserve _ _ d "ADDR" (by decide) hok, dlookup_dinsert_self]

/-- C9 witness: concrete instances of both conditional branches. -/
theorem c9_static_addr_conditional_witness :
    exceptIsOk (validateSettings
      [("SSID", .vStr "a"), ("KEY", .vStr "b"), ("STATIC", .vStr "TRUE")]) = false ∧
    dlookup "ADDR"
      [("SSID", .vStr "a"), ("KEY", .vStr "b"), ("STATIC", .vBool false),
       ("MAX_CON", .vInt 5), ("TIMEOUT", .vInt 10), ("PORT", .vInt 80),
       ("ADDR", .vNone), ("MASK", .vNone), ("GATEWAY", .vNone),
       ("ADDR_FAMILY", .vNone)] = some .vNone :=
  ⟨c9_static_addr_conditional.1
      [("SSID", .vStr "a"), ("KEY", .vStr "b"), ("STATIC", .vStr "TRUE")] rfl rfl,
   c9_static_addr_conditional.2.1
      [("SSID", .vStr "a"), ("KEY", .vStr "b"), ("STATIC", .vStr "FALSE")]
      [("SSID", .vStr "a"), ("KEY", .vStr "b"), ("STATIC", .vBool false),
       ("MAX_CON", .vInt 5), ("TIMEOUT", .vInt 10), ("PORT", .vInt 80),
       ("ADDR", .vNone), ("MASK", .vNone), ("GATEWAY", .vNone),
       ("ADDR_FAMILY", .vNone)]
      (Or.inl rfl) rfl rfl⟩

/-- C10.  Whenever `readSettings` returns (rather than terminating
fatally), the returned configuration has pairwise-distinct keys, holds an
entry exactly for the schema keys (unknown keys from the input are
silently ignored and never surface), and each entry is the coerced
supplied value when the key was parsed from the input, or the schema
default when it was not. -/
theorem c10_config_complete (ls : List String) (d : Dict)
    (h : readSettings ls = .ok d) :
    (dKeys d).Nodup ∧
    (∀ k, (dlookup k d).isSome = true ↔ k ∈ schemaKeys) ∧
    (∃ s0, readLines ls = .ok s0 ∧ ∀ e ∈ settings_model,
      (dlookup e.key s0 = none → dlookup e.key d = some e.default) ∧
      (∀ raw, dlookup e.key s0 = some (.vStr raw) →
        dlookup e.key d = pyCoerce e.type raw)) := by
  rw [readSettings] at h
  cases h0 : readLines ls with
  | error m => simp only [h0] at h; cases h
  | ok s0 =>
    simp only [h0] at h
    rw [validateSettings] at h
    have hnd : (settings_model.map SchemaEntry.key).Nodup := by decide
    have hs0keys : ∀ x ∈ dKeys s0, x ∈ schemaKeys := by
      intro x hx
      rcases readLinesAux_keys ls [] s0 h0 x hx with h1 | h1
      · simp [dKeys] at h1
      · exact h1
    have hs0nodup : (dKeys s0).Nodup := readLinesAux_nodup ls [] s0 (by simp [dKeys]) h0
    refine ⟨validateAll_nodup _ _ _ hs0nodup h, ?_, s0, rfl, ?_⟩
    · intro k
      constructor
      · intro hk
        rcases validateAll_keys _ _ _ h k ((dlookup_isSome_iff k d).mp hk) with h1 | h1
        · rw [schemaKeys]
          exact h1
        · exact hs0keys k h1
      · intro hk
        rw [schemaKeys] at hk
        obtain ⟨e, he, rfl⟩ := List.mem_map.mp hk
        obtain ⟨v, hv⟩ := (validateAll_main settings_model s0 d hnd h e he).1
        rw [hv]
        rfl
    · intro e he
      exact ⟨(validateAll_main settings_model s0 d hnd h e he).2.1,
             (validateAll_main settings_model s0 d hnd h e he).2.2⟩

/-- C10 witness: with an unknown `JUNK` key supplied, the returned
configuration answers for the schema key `PORT` and has no entry for
`JUNK`. -/
theorem c10_config_complete_witness :
    (dlookup "PORT"
      [("SSID", .vStr "a"), ("KEY", .vStr "b"), ("MAX_CON", .vInt 7),
       ("TIMEOUT", .vInt 10), ("PORT", .vInt 80), ("STATIC", .vBool false),
       ("ADDR", .vNone), ("MASK", .vNone), ("GATEWAY", .vNone),
       ("ADDR_FAMILY", .vNone)]).isSome = true ∧
    dlookup "JUNK"
      [("SSID", .vStr "a"), ("KEY", .vStr "b"), ("MAX_CON", .vInt 7),
       ("TIMEOUT", .vInt 10), ("PORT", .vInt 80), ("STATIC", .vBool false),
       ("ADDR", .vNone), ("MASK", .vNone), ("GATEWAY", .vNone),
       ("ADDR_FAMILY", .vNone)] = none := by
  have h := c10_config_complete ["SSID=a", "KEY=b", "MAX_CON=7", "JUNK=1"]
    [("SSID", .vStr "a"), ("KEY", .vStr "b"), ("MAX_CON", .vInt 7),
     ("TIMEOUT", .vInt 10), ("PORT", .vInt 80), ("STATIC", .vBool false),
     ("ADDR", .vNone), ("MASK", .vNone), ("GATEWAY", .vNone),
     ("ADDR_FAMILY", .vNone)] rfl
  refine ⟨(h.2.1 "PORT").mpr (by decide), ?_⟩
  have h2 := h.2.1 "JUNK"
  cases hj : dlookup "JUNK"
      [("SSID", .vStr "a"), ("KEY", .vStr "b"), ("MAX_CON", .vInt 7),
       ("TIMEOUT", .vInt 10), ("PORT", .vInt 80), ("STATIC", .vBool false),
       ("ADDR", .vNone), ("MASK", .vNone), ("GATEWAY", .vNone),
       ("ADDR_FAMILY", .vNone)] with
  | none => rfl
  | some v =>
    exact absurd (h2.mp (by rw [hj]; rfl)) (by decide)
